import Mathlib

/-!
Shallow embedding of the `hezar` repository fragment:

* `src/hezar/configs.py` — the dataclass-based configuration layer
  (`BaseConfig.dict`, `BaseConfig.from_dict`, and the concrete config
  classes `ModelConfig`, `DatasetConfig`, `CriterionConfig`,
  `OptimizerConfig`, `TaskConfig`).
* `src/hezar/data/datasets/text_classification_dataset.py` — the
  `TextClassificationDataset` wrapper (`_extract_labels`, `__len__`,
  `__getitem__`, `__init__`) and `TextClassificationDatasetConfig`.

Python values are modelled by the inductive type `Value`; Python dicts and
object attribute tables are modelled as insertion-ordered association lists
with unique keys (Python dict semantics: an update of an existing key keeps
its position, a new key is appended).  External library calls (the HF
dataset, the tokenizer, the data collator, torch tensors) are modelled as
opaque data or abstract functions supplied as parameters.
-/

/-- A Python runtime value, as far as the code under verification
inspects values: `None`, strings, ints, lists, plain dicts, torch long
tensors (`torch.tensor([label], dtype=torch.long)`), and dataclass
instances (`vobj className fieldTable`).  A dataclass instance compares
unequal to a plain dict holding the same entries, exactly as in Python. -/
inductive Value where
  | pynone : Value
  | atom : String → Value
  | vint : Int → Value
  | tensorLong : List Int → Value
  | vlist : List Value → Value
  | vdict : List (String × Value) → Value
  | vobj : String → List (String × Value) → Value

/-- First-match association lookup: Python `d[k]` / `getattr(obj, k)` on the
assoc-list model (keys are unique in every dict the code builds). -/
def alookup {β : Type} : List (String × β) → String → Option β
  | [], _ => none
  | p :: rest, k => if p.1 = k then some p.2 else alookup rest k

/-- Python `d[k] = v` / `setattr(obj, k, v)`: replace the value of an
existing key in place, otherwise append the new binding. -/
def setKey {β : Type} (d : List (String × β)) (k : String) (v : β) :
    List (String × β) :=
  if (alookup d k).isSome then
    d.map (fun p => if p.1 = k then (k, v) else p)
  else
    d ++ [(k, v)]

/-- Python `d.update(kw)`: fold every binding of `kw` into `d`. -/
def dictUpdate {β : Type} (d kw : List (String × β)) : List (String × β) :=
  kw.foldl (fun acc p => setKey acc p.1 p.2) d

/-- Python dict construction from a pair list (`dict(pairs)` or a dict
comprehension): later occurrences of a key overwrite earlier ones. -/
def pyDictOf {β : Type} (l : List (String × β)) : List (String × β) :=
  dictUpdate [] l

mutual

/-- `dataclasses.asdict` applied to a single value: dataclass instances
become plain dicts, containers are rebuilt with converted elements,
atomic values are returned unchanged. -/
def asdictV : Value → Value
  | .pynone => .pynone
  | .atom s => .atom s
  | .vint n => .vint n
  | .tensorLong t => .tensorLong t
  | .vlist l => .vlist (asdictVL l)
  | .vdict l => .vdict (asdictL l)
  | .vobj _ l => .vdict (asdictL l)

/-- `asdict` conversion of the elements of a Python list. -/
def asdictVL : List Value → List Value
  | [] => []
  | v :: rest => asdictV v :: asdictVL rest

/-- `asdict` conversion of the entries of a dict / field table. -/
def asdictL : List (String × Value) → List (String × Value)
  | [] => []
  | p :: rest => (p.1, asdictV p.2) :: asdictL rest

end

mutual

/-- A value is flat when it contains no dataclass instance, so `asdict`
leaves it unchanged. -/
def Value.flat : Value → Bool
  | .pynone => true
  | .atom _ => true
  | .vint _ => true
  | .tensorLong _ => true
  | .vlist l => flatVL l
  | .vdict l => flatL l
  | .vobj _ _ => false

/-- All elements of a Python list are flat. -/
def flatVL : List Value → Bool
  | [] => true
  | v :: rest => v.flat && flatVL rest

/-- All values of a dict are flat. -/
def flatL : List (String × Value) → Bool
  | [] => true
  | p :: rest => p.2.flat && flatL rest

end

/-- Reflection data of one config class, as `BaseConfig.from_dict` uses it:

* `config_type` — the class attribute `cls.config_type` (section key);
* `defaults` — the dataclass fields in declaration order (inherited fields
  first), each with its default value: `cls(**args)` builds an instance
  from exactly these fields (every field of every config class in the
  repository has a default);
* `annots` — the keys of `cls.__annotations__`, i.e. only the annotations
  written in the class body itself, not inherited ones;
* `classAttrs` — the names `k` with `hasattr(cls, k)`: fields declared
  with a plain default, inherited class attributes, and methods.  A field
  declared with `default_factory` is *not* a class attribute. -/
structure ConfigClass where
  name : String
  config_type : String
  defaults : List (String × Value)
  annots : List String
  classAttrs : List String

/-- The dataclass field names of a config class, in declaration order. -/
def fieldNames (cls : ConfigClass) : List String := cls.defaults.map Prod.fst

/-- `cls(**args)`: every field takes the keyword argument of the same name
when present, its declared default otherwise. -/
def mkInstance (cls : ConfigClass) (args : List (String × Value)) :
    List (String × Value) :=
  cls.defaults.map (fun p => (p.1, (alookup args p.1).getD p.2))

/-- The errors `BaseConfig.from_dict` can raise, one constructor per raise
site: the `dict_config[cls.config_type]` section lookup (`keyError`), a
section that is not a dict (`typeMismatch`), the strict-mode `ValueError`
for an unknown attribute (`strictAttr`, carrying the class name, the key
and the offending value interpolated into the message), and the final
`ValueError` raised when `config is None` (`noConfigTypeKey`).
`indexError` models Python list indexing out of range (used by the
dataset wrapper's `__getitem__`). -/
inductive PyErr where
  | keyError : String → PyErr
  | typeMismatch : String → PyErr
  | strictAttr : String → String → Value → PyErr
  | noConfigTypeKey : String → PyErr
  | indexError : Nat → PyErr

/-- The `for k, v in dict_config.items()` loop of `BaseConfig.from_dict`:
keys with `hasattr(cls, k)` are skipped; otherwise strict mode raises the
`ValueError` and non-strict mode does `setattr(config, k, v)`.  The
running config is an `Option` because the Python variable is tested
against `None` after the loop. -/
def applyExtras (cls : ConfigClass) (strict : Bool) :
    List (String × Value) → Option (List (String × Value)) →
    Except PyErr (Option (List (String × Value)))
  | [], c => .ok c
  | p :: rest, c =>
    if p.1 ∈ cls.classAttrs then applyExtras cls strict rest c
    else if strict then .error (.strictAttr cls.name p.1 p.2)
    else applyExtras cls strict rest (c.map (fun cc => setKey cc p.1 p.2))

/-- The pure effect of the non-strict extras loop on the config's
attribute table. -/
def extrasFold (cls : ConfigClass) (l : List (String × Value))
    (c : List (String × Value)) : List (String × Value) :=
  l.foldl (fun acc p => if p.1 ∈ cls.classAttrs then acc else setKey acc p.1 p.2) c

/-- Body of `BaseConfig.from_dict` after the section lookup succeeded with
a dict section: merge the keyword arguments into the section, build the
instance from the keys listed in `cls.__annotations__`, run the extras
loop, and finally raise if the config variable is `None`. -/
def from_dict_body (cls : ConfigClass) (sec : List (String × Value))
    (strict : Bool) (kwargs : List (String × Value)) :
    Except PyErr (List (String × Value)) :=
  let merged := dictUpdate sec kwargs
  let config : Option (List (String × Value)) :=
    some (mkInstance cls (merged.filter (fun p => decide (p.1 ∈ cls.annots))))
  match applyExtras cls strict merged config with
  | .error e => .error e
  | .ok none => .error (.noConfigTypeKey cls.config_type)
  | .ok (some c) => .ok c

/-- `BaseConfig.from_dict(cls, dict_config, strict, **kwargs)`
(src/hezar/configs.py): look up the `cls.config_type` section of the given
dict (a missing key raises `KeyError`), then process the section. -/
def from_dict (cls : ConfigClass) (d : List (String × Value)) (strict : Bool)
    (kwargs : List (String × Value)) : Except PyErr (List (String × Value)) :=
  match alookup d cls.config_type with
  | none => .error (.keyError cls.config_type)
  | some (.vdict sec) => from_dict_body cls sec strict kwargs
  | some _ => .error (.typeMismatch cls.config_type)

/-- `BaseConfig.dict(self)`, i.e. `dataclasses.asdict(self)`: the dataclass
fields of the instance, in field order, with values converted by
`asdict` (extra attributes attached by `setattr` are not serialized). -/
def configDict (cls : ConfigClass) (c : List (String × Value)) :
    List (String × Value) :=
  asdictL ((fieldNames cls).filterMap (fun f => (alookup c f).map (fun v => (f, v))))

/-- Python `str(i)` on an int index (and `str(v)` on a string is the
identity): decimal representation. -/
def strOfNat (n : Nat) : String := Nat.repr n

/-- Reads a decimal string back into a number (used only to show that
`strOfNat` is injective, i.e. that distinct indices give distinct
`id2label` keys). -/
def strParseNat (s : String) : Nat :=
  s.data.foldl (fun a c => 10 * a + (c.toNat - 48)) 0

/-- Helper for the injectivity of `strOfNat`: append the decimal digits
of `n` to the digit string already read into `acc`. -/
def pushD (acc n : Nat) : Nat :=
  if n < 10 then 10 * acc + n else 10 * pushD acc (n / 10) + n % 10
termination_by n
decreasing_by
  exact Nat.div_lt_self (by omega) (by omega)

/-- `enumerate(labels_list)` followed by the `{str(k): str(v)}`
comprehension pairs: `[(str 0, l0), (str 1, l1), ...]`. -/
def tcEnumPairs (labels : List String) : List (String × String) :=
  labels.enum.map (fun p => (strOfNat p.1, p.2))

/-- `TextClassificationDataset._extract_labels`: `id2label = {str(k): str(v)
for k, v in dict(list(enumerate(labels_list))).items()}` (label names are
already strings, so `str` is the identity on them). -/
def tcId2label (labels : List String) : List (String × String) :=
  pyDictOf (tcEnumPairs labels)

/-- `TextClassificationDataset._extract_labels`: `label2id = {v: k for k, v
in self.id2label.items()}`. -/
def tcLabel2id (labels : List String) : List (String × String) :=
  pyDictOf ((tcId2label labels).map (fun p => (p.2, p.1)))

/-- `TextClassificationDataset._extract_labels`:
`num_labels = len(labels_list)`. -/
def tcNumLabels (labels : List String) : Nat := labels.length

/-- The state of a constructed `TextClassificationDataset`.  The loaded HF
dataset is a list of rows (each a column-name-indexed record); the
tokenizer (`self.preprocessor`) and the data collator are external
library objects, modelled as abstract functions; `text_field` and
`label_field` are the config fields `__getitem__` reads. -/
structure TCDataset where
  dataset : List (List (String × Value))
  config : List (String × Value)
  text_field : String
  label_field : String
  preprocessor : Value → List (String × Value)
  dataCollator : List (List (String × Value)) → List (String × Value)
  id2label : List (String × String)
  label2id : List (String × String)
  num_labels : Nat

/-- `TextClassificationDataset.__len__`: `len(self.dataset)`.  The method
is modelled as a state transformer to make the absence of mutation a
statement rather than a convention: it returns the (unchanged) object
together with the value. -/
def TCDataset.lenM (s : TCDataset) : TCDataset × Nat := (s, s.dataset.length)

/-- `TextClassificationDataset.__getitem__`: read the text and label
columns of row `index`, run the tokenizer on the text, and attach
`inputs["labels"] = torch.tensor([label], dtype=torch.long)`.
Like `lenM`, it returns the (unchanged) object with the result. -/
def TCDataset.getItem (s : TCDataset) (index : Nat) :
    TCDataset × Except PyErr (List (String × Value)) :=
  match s.dataset.get? index with
  | none => (s, .error (.indexError index))
  | some row =>
    match alookup row s.text_field with
    | none => (s, .error (.keyError s.text_field))
    | some text =>
      match alookup row s.label_field with
      | none => (s, .error (.keyError s.label_field))
      | some (.vint label) =>
        (s, .ok (setKey (s.preprocessor text) "labels" (.tensorLong [label])))
      | some _ => (s, .error (.typeMismatch s.label_field))

/-- A `{str: str}` dict as a Python value (shape of `config.id2label`
and `config.label2id` after `_extract_labels`). -/
def strDictToValue (m : List (String × String)) : Value :=
  .vdict (m.map (fun p => (p.1, Value.atom p.2)))

/-- `TextClassificationDataset.__init__`.  Modelled from the spec: the base
class `Dataset` (src/hezar/data/datasets/dataset.py is not part of the
sources) is modelled, per the spec's description of the wrapper as holding
a reference to its config, as `Dataset.__init__` storing the passed config
object on the instance, so `self.config` aliases the caller's config.
The externally loaded dataset (`_load`), its feature schema's label list,
the tokenizer and the data collator are parameters.  `_extract_labels`
writes `id2label`, `label2id` and `num_labels` both onto the wrapper and
onto the shared config object; the second component of the result is the
caller's config object after construction. -/
def tcdInit (config : List (String × Value))
    (rows : List (List (String × Value))) (labels : List String)
    (text_field label_field : String)
    (tok : Value → List (String × Value))
    (collator : List (List (String × Value)) → List (String × Value)) :
    TCDataset × List (String × Value) :=
  let cfg1 := setKey config "id2label" (strDictToValue (tcId2label labels))
  let cfg2 := setKey cfg1 "label2id" (strDictToValue (tcLabel2id labels))
  let cfg3 := setKey cfg2 "num_labels" (.vint (tcNumLabels labels))
  ({ dataset := rows
     config := cfg3
     text_field := text_field
     label_field := label_field
     preprocessor := tok
     dataCollator := collator
     id2label := tcId2label labels
     label2id := tcLabel2id labels
     num_labels := tcNumLabels labels }, cfg3)

/-- The methods every config class inherits from `BaseConfig`; they are
class attributes, so `hasattr(cls, k)` holds for them.  (Python also has
dunder attributes like `__init__`; the model lists the attribute names
relevant to the keys exercised here.) -/
def baseMethods : List String :=
  ["dict", "from_pretrained", "from_dict", "save_pretrained"]

/-- Reflection data of `BaseConfig` itself. -/
def baseConfigCls : ConfigClass where
  name := "BaseConfig"
  config_type := "base"
  defaults := [("config_type", .atom "base")]
  annots := ["config_type"]
  classAttrs := "config_type" :: baseMethods

/-- Reflection data of `ModelConfig` (src/hezar/configs.py). -/
def modelConfigCls : ConfigClass where
  name := "ModelConfig"
  config_type := "model"
  defaults :=
    [("config_type", .atom "model"), ("name", .pynone),
     ("pretrained_path", .pynone), ("inner_model_config", .pynone)]
  annots := ["config_type", "name", "pretrained_path", "inner_model_config"]
  classAttrs :=
    "config_type" :: "name" :: "pretrained_path" :: "inner_model_config" :: baseMethods

/-- Reflection data of `DatasetConfig` (src/hezar/configs.py). -/
def datasetConfigCls : ConfigClass where
  name := "DatasetConfig"
  config_type := "dataset"
  defaults := [("config_type", .atom "dataset"), ("name", .pynone), ("task", .pynone)]
  annots := ["config_type", "name", "task"]
  classAttrs := "config_type" :: "name" :: "task" :: baseMethods

/-- Reflection data of `TextClassificationDatasetConfig`
(src/hezar/data/datasets/text_classification_dataset.py).  It subclasses
`DatasetConfig` without re-annotating `config_type`, so `config_type` is a
field (inherited, default `"dataset"`) but is *not* in
`cls.__annotations__`; `preprocessors` uses `default_factory=list`, so it
is a field but not a class attribute (`hasattr` is false for it). -/
def textClsDatasetConfigCls : ConfigClass where
  name := "TextClassificationDatasetConfig"
  config_type := "dataset"
  defaults :=
    [("config_type", .atom "dataset"), ("name", .atom "text_classification"),
     ("task", .atom "text_classification"), ("path", .pynone),
     ("preprocessors", .vlist []), ("tokenizer_path", .pynone),
     ("label_field", .pynone), ("text_field", .pynone), ("max_length", .pynone)]
  annots :=
    ["name", "task", "path", "preprocessors", "tokenizer_path",
     "label_field", "text_field", "max_length"]
  classAttrs :=
    "config_type" :: "name" :: "task" :: "path" :: "tokenizer_path" ::
    "label_field" :: "text_field" :: "max_length" :: baseMethods

/-- The instance `TextClassificationDatasetConfig(config_type="x")`: the
dataclass constructor accepts every field (inherited ones included), so
this is a legal instance whose attributes are exactly its fields. -/
def tcdCexInst : List (String × Value) :=
  [("config_type", .atom "x"), ("name", .atom "text_classification"),
   ("task", .atom "text_classification"), ("path", .pynone),
   ("preprocessors", .vlist []), ("tokenizer_path", .pynone),
   ("label_field", .pynone), ("text_field", .pynone), ("max_length", .pynone)]

theorem alookup_nil {β : Type} (k : String) :
    alookup ([] : List (String × β)) k = none := rfl

theorem alookup_cons {β : Type} (p : String × β) (rest : List (String × β))
    (k : String) :
    alookup (p :: rest) k = if p.1 = k then some p.2 else alookup rest k := rfl

theorem alookup_append_of_some {β : Type} {l : List (String × β)} {k : String}
    {v : β} (m : List (String × β)) (h : alookup l k = some v) :
    alookup (l ++ m) k = some v := by
  induction l with
  | nil => simp [alookup] at h
  | cons p rest ih =>
    by_cases hp : p.1 = k
    · simp [alookup, hp] at h ⊢; exact h
    · simp [alookup, hp] at h ⊢; exact ih h

theorem alookup_append_of_none {β : Type} {l : List (String × β)} {k : String}
    (m : List (String × β)) (h : alookup l k = none) :
    alookup (l ++ m) k = alookup m k := by
  induction l with
  | nil => rfl
  | cons p rest ih =>
    by_cases hp : p.1 = k
    · simp [alookup, hp] at h
    · simp [alookup, hp] at h ⊢; exact ih h

theorem alookup_map_ite {β : Type} (d : List (String × β)) (k : String) (v : β) :
    alookup (d.map (fun p => if p.1 = k then (k, v) else p)) k =
      (alookup d k).map (fun _ => v) := by
  induction d with
  | nil => rfl
  | cons p rest ih =>
    by_cases hp : p.1 = k
    · simp [alookup, hp]
    · simp [alookup, hp, ih]

theorem alookup_map_ite_ne {β : Type} (d : List (String × β)) {k k' : String}
    (v : β) (h : k' ≠ k) :
    alookup (d.map (fun p => if p.1 = k then (k, v) else p)) k' = alookup d k' := by
  induction d with
  | nil => rfl
  | cons p rest ih =>
    rw [List.map_cons]
    by_cases hp : p.1 = k
    · rw [if_pos hp]
      have hk : ¬ ((k, v).1 = k') := fun e => h e.symm
      have hp' : ¬ (p.1 = k') := by rw [hp]; exact fun e => h e.symm
      rw [alookup, if_neg hk, alookup, if_neg hp', ih]
    · rw [if_neg hp]
      by_cases hp' : p.1 = k'
      · rw [alookup, if_pos hp', alookup, if_pos hp']
      · rw [alookup, if_neg hp', alookup, if_neg hp', ih]

theorem alookup_setKey_self {β : Type} (d : List (String × β)) (k : String) (v : β) :
    alookup (setKey d k v) k = some v := by
  unfold setKey
  rcases h : alookup d k with _ | w
  · simp only [h, Option.isSome_none, Bool.false_eq_true, if_false]
    rw [alookup_append_of_none _ h]
    simp [alookup]
  · simp only [h, Option.isSome_some, if_true]
    rw [alookup_map_ite, h]
    rfl

theorem alookup_setKey_ne {β : Type} (d : List (String × β)) {k k' : String}
    (v : β) (h : k' ≠ k) : alookup (setKey d k v) k' = alookup d k' := by
  unfold setKey
  rcases hx : alookup d k with _ | w
  · simp only [hx, Option.isSome_none, Bool.false_eq_true, if_false]
    rcases h' : alookup d k' with _ | w'
    · rw [alookup_append_of_none _ h']
      rw [alookup_cons, if_neg (fun e => h e.symm), alookup_nil]
    · exact alookup_append_of_some _ h'
  · simp only [hx, Option.isSome_some, if_true]
    exact alookup_map_ite_ne d v h

theorem alookup_eq_none_iff {β : Type} (d : List (String × β)) (k : String) :
    alookup d k = none ↔ k ∉ d.map Prod.fst := by
  induction d with
  | nil => simp [alookup]
  | cons p rest ih =>
    rw [alookup, List.map_cons]
    by_cases hp : p.1 = k
    · rw [if_pos hp]
      simp [hp.symm]
    · rw [if_neg hp, ih, List.mem_cons]
      constructor
      · intro hnk hor
        rcases hor with e | e
        · exact hp e.symm
        · exact hnk e
      · intro hall e
        exact hall (Or.inr e)

theorem alookup_mem {β : Type} {d : List (String × β)} {k : String} {v : β}
    (h : alookup d k = some v) : (k, v) ∈ d := by
  induction d with
  | nil => simp [alookup] at h
  | cons p rest ih =>
    rw [alookup] at h
    by_cases hp : p.1 = k
    · rw [if_pos hp] at h
      have hp2 : p = (k, v) := Prod.ext hp (Option.some.inj h)
      rw [← hp2]
      exact List.mem_cons_self _ _
    · rw [if_neg hp] at h
      exact List.mem_cons_of_mem _ (ih h)

theorem alookup_of_mem_nodup {β : Type} {d : List (String × β)} {k : String}
    {v : β} (hnd : (d.map Prod.fst).Nodup) (h : (k, v) ∈ d) :
    alookup d k = some v := by
  induction d with
  | nil => simp at h
  | cons p rest ih =>
    rcases List.mem_cons.mp h with h0 | h0
    · rw [← h0, alookup, if_pos rfl]
    · have hk : k ∈ rest.map Prod.fst := List.mem_map.mpr ⟨(k, v), h0, rfl⟩
      have hp : p.1 ≠ k := by
        intro e
        exact (List.nodup_cons.mp hnd).1 (e ▸ hk)
      rw [alookup, if_neg hp]
      exact ih (List.nodup_cons.mp hnd).2 h0

theorem setKey_keys_of_isSome {β : Type} {d : List (String × β)} {k : String}
    (v : β) (h : (alookup d k).isSome) :
    (setKey d k v).map Prod.fst = d.map Prod.fst := by
  unfold setKey
  rw [if_pos h, List.map_map]
  apply List.map_congr_left
  intro p _
  by_cases hp : p.1 = k
  · simp [hp]
  · simp [hp]

theorem setKey_keys_of_none {β : Type} {d : List (String × β)} {k : String}
    (v : β) (h : alookup d k = none) :
    (setKey d k v).map Prod.fst = d.map Prod.fst ++ [k] := by
  unfold setKey
  rw [h]
  simp

theorem nodup_keys_setKey {β : Type} {d : List (String × β)} (k : String) (v : β)
    (h : (d.map Prod.fst).Nodup) : ((setKey d k v).map Prod.fst).Nodup := by
  rcases hx : alookup d k with _ | w
  · rw [setKey_keys_of_none v hx]
    have hk : k ∉ d.map Prod.fst := (alookup_eq_none_iff d k).mp hx
    simp [List.nodup_append, h, hk]
  · rw [setKey_keys_of_isSome v (by rw [hx]; rfl)]
    exact h

theorem dictUpdate_cons {β : Type} (d : List (String × β)) (p : String × β)
    (rest : List (String × β)) :
    dictUpdate d (p :: rest) = dictUpdate (setKey d p.1 p.2) rest := rfl

theorem dictUpdate_nil {β : Type} (d : List (String × β)) :
    dictUpdate d [] = d := rfl

theorem nodup_keys_dictUpdate {β : Type} (d kw : List (String × β))
    (h : (d.map Prod.fst).Nodup) : ((dictUpdate d kw).map Prod.fst).Nodup := by
  induction kw generalizing d with
  | nil => exact h
  | cons p rest ih =>
    rw [dictUpdate_cons]
    exact ih _ (nodup_keys_setKey p.1 p.2 h)

theorem alookup_dictUpdate_of_none {β : Type} {kw : List (String × β)}
    {k : String} (d : List (String × β)) (h : alookup kw.reverse k = none) :
    alookup (dictUpdate d kw) k = alookup d k := by
  induction kw generalizing d with
  | nil => rfl
  | cons p rest ih =>
    rw [List.reverse_cons] at h
    have h2 : alookup rest.reverse k = none := by
      rcases h2 : alookup rest.reverse k with _ | w
      · rfl
      · rw [alookup_append_of_some _ h2] at h
        exact absurd h (by simp)
    rw [alookup_append_of_none _ h2, alookup_cons, alookup_nil] at h
    have hp : ¬ p.1 = k := by
      intro e
      rw [if_pos e] at h
      exact absurd h (by simp)
    rw [dictUpdate_cons, ih _ h2, alookup_setKey_ne _ _ (fun e => hp e.symm)]

theorem alookup_dictUpdate_of_some {β : Type} {kw : List (String × β)}
    {k : String} {v : β} (d : List (String × β))
    (h : alookup kw.reverse k = some v) :
    alookup (dictUpdate d kw) k = some v := by
  induction kw generalizing d with
  | nil => exact absurd h (by simp [alookup_nil])
  | cons p rest ih =>
    rw [List.reverse_cons] at h
    rw [dictUpdate_cons]
    rcases h2 : alookup rest.reverse k with _ | w
    · rw [alookup_append_of_none _ h2, alookup_cons, alookup_nil] at h
      have hp : p.1 = k := by
        by_cases hp : p.1 = k
        · exact hp
        · rw [if_neg hp] at h
          exact absurd h (by simp)
      rw [if_pos hp] at h
      rw [alookup_dictUpdate_of_none _ h2, ← hp, alookup_setKey_self]
      exact h
    · rw [alookup_append_of_some _ h2] at h
      rw [h] at h2
      exact ih _ h2

theorem alookup_pyDictOf {β : Type} (l : List (String × β)) (k : String) :
    alookup (pyDictOf l) k = alookup l.reverse k := by
  rcases h : alookup l.reverse k with _ | w
  · rw [pyDictOf, alookup_dictUpdate_of_none _ h, alookup_nil]
  · rw [pyDictOf, alookup_dictUpdate_of_some _ h]

theorem pyDictOf_keys_nodup {β : Type} (l : List (String × β)) :
    ((pyDictOf l).map Prod.fst).Nodup :=
  nodup_keys_dictUpdate [] l List.nodup_nil

theorem alookup_filter_key {β : Type} (pk : String → Bool)
    (d : List (String × β)) (k : String) :
    alookup (d.filter (fun p => pk p.1)) k =
      if pk k then alookup d k else none := by
  induction d with
  | nil => simp [alookup_nil]
  | cons p rest ih =>
    rw [List.filter_cons]
    by_cases hp : p.1 = k
    · rw [hp]
      by_cases hk : pk k
      · simp only [hk, if_true]
        rw [alookup_cons, alookup_cons, if_pos hp, if_pos hp]
      · simp only [hk, Bool.false_eq_true, if_false]
        rw [ih]
        simp [hk]
    · by_cases hk : pk p.1
      · simp only [hk, if_true]
        rw [alookup_cons, if_neg hp, alookup_cons, if_neg hp, ih]
      · simp only [hk, Bool.false_eq_true, if_false]
        rw [ih, alookup_cons, if_neg hp]

theorem alookup_map_keyed {β γ : Type} (g : String → β → γ)
    (d : List (String × β)) (k : String) :
    alookup (d.map (fun p => (p.1, g p.1 p.2))) k = (alookup d k).map (g k) := by
  induction d with
  | nil => rfl
  | cons p rest ih =>
    rw [List.map_cons, alookup_cons, alookup_cons]
    by_cases hp : p.1 = k
    · rw [if_pos hp, if_pos hp, hp]
      rfl
    · rw [if_neg hp, if_neg hp, ih]

theorem alookup_mkInstance (cls : ConfigClass) (args : List (String × Value))
    (k : String) :
    alookup (mkInstance cls args) k =
      (alookup cls.defaults k).map (fun dv => (alookup args k).getD dv) :=
  alookup_map_keyed (fun k0 dv => (alookup args k0).getD dv) cls.defaults k

theorem filterMap_congr_mem {α γ : Type} {l : List α} {f g : α → Option γ}
    (h : ∀ a ∈ l, f a = g a) : l.filterMap f = l.filterMap g := by
  induction l with
  | nil => rfl
  | cons a rest ih =>
    rw [List.filterMap_cons, List.filterMap_cons, h a (List.mem_cons_self a rest),
      ih (fun b hb => h b (List.mem_cons_of_mem a hb))]

theorem restore_filterMap {β : Type} (c : List (String × β))
    (hnd : (c.map Prod.fst).Nodup) :
    (c.map Prod.fst).filterMap (fun f => (alookup c f).map (fun v => (f, v))) = c := by
  induction c with
  | nil => rfl
  | cons p rest ih =>
    rw [List.map_cons, List.filterMap_cons]
    have h1 : alookup (p :: rest) p.1 = some p.2 := by
      rw [alookup_cons, if_pos rfl]
    rw [h1]
    have hcongr : ∀ f ∈ rest.map Prod.fst,
        ((alookup (p :: rest) f).map (fun v => (f, v)) : Option (String × β)) =
          (alookup rest f).map (fun v => (f, v)) := by
      intro f hf
      have hp : ¬ p.1 = f := by
        intro e
        exact (List.nodup_cons.mp hnd).1 (e ▸ hf)
      rw [alookup_cons, if_neg hp]
    rw [filterMap_congr_mem hcongr, ih (List.nodup_cons.mp hnd).2]
    rfl

theorem map_alookup_getD_restore {β : Type} (dflt c : List (String × β))
    (hk : c.map Prod.fst = dflt.map Prod.fst) (hnd : (c.map Prod.fst).Nodup) :
    dflt.map (fun p => (p.1, (alookup c p.1).getD p.2)) = c := by
  induction dflt generalizing c with
  | nil =>
    have h0 : c.map Prod.fst = [] := by simpa using hk
    rw [List.map_eq_nil_iff] at h0
    rw [h0]
    rfl
  | cons q dRest ih =>
    cases c with
    | nil => simp at hk
    | cons p cRest =>
      rw [List.map_cons, List.map_cons] at hk
      have hk1 : p.1 = q.1 := (List.cons.injEq _ _ _ _ ▸ hk).1
      have hk2 : cRest.map Prod.fst = dRest.map Prod.fst :=
        (List.cons.injEq _ _ _ _ ▸ hk).2
      rw [List.map_cons]
      have hhead : (q.1, (alookup (p :: cRest) q.1).getD q.2) = p := by
        rw [alookup_cons, if_pos hk1]
        exact Prod.ext hk1.symm rfl
      rw [hhead]
      have hnd2 : (cRest.map Prod.fst).Nodup := by
        rw [List.map_cons] at hnd
        exact (List.nodup_cons.mp hnd).2
      have hcongr : ∀ r ∈ dRest,
          ((r.1, (alookup (p :: cRest) r.1).getD r.2) : String × β) =
            (r.1, (alookup cRest r.1).getD r.2) := by
        intro r hr
        have hr1 : r.1 ∈ cRest.map Prod.fst := by
          rw [hk2]
          exact List.mem_map.mpr ⟨r, hr, rfl⟩
        have hp : ¬ p.1 = r.1 := by
          intro e
          rw [List.map_cons] at hnd
          exact (List.nodup_cons.mp hnd).1 (e ▸ hr1)
        rw [alookup_cons, if_neg hp]
      rw [List.map_congr_left hcongr, ih cRest hk2 hnd2]

mutual

theorem asdictV_flat : ∀ v : Value, v.flat = true → asdictV v = v
  | .pynone, _ => rfl
  | .atom _, _ => rfl
  | .vint _, _ => rfl
  | .tensorLong _, _ => rfl
  | .vlist l, h => by
    rw [asdictV, asdictVL_flat l h]
  | .vdict l, h => by
    rw [asdictV, asdictL_flat l h]
  | .vobj _ _, h => by
    exact absurd h (by rw [Value.flat]; exact Bool.false_ne_true)

theorem asdictVL_flat : ∀ l : List Value, flatVL l = true → asdictVL l = l
  | [], _ => rfl
  | v :: rest, h => by
    have h2 : v.flat = true ∧ flatVL rest = true := by
      rw [flatVL, Bool.and_eq_true] at h
      exact h
    rw [asdictVL, asdictV_flat v h2.1, asdictVL_flat rest h2.2]

theorem asdictL_flat : ∀ l : List (String × Value), flatL l = true → asdictL l = l
  | [], _ => rfl
  | p :: rest, h => by
    have h2 : p.2.flat = true ∧ flatL rest = true := by
      rw [flatL, Bool.and_eq_true] at h
      exact h
    rw [asdictL, asdictV_flat p.2 h2.1, asdictL_flat rest h2.2]

end

theorem applyExtras_nil (cls : ConfigClass) (strict : Bool)
    (co : Option (List (String × Value))) :
    applyExtras cls strict [] co = .ok co := rfl

theorem applyExtras_cons (cls : ConfigClass) (strict : Bool)
    (p : String × Value) (rest : List (String × Value))
    (co : Option (List (String × Value))) :
    applyExtras cls strict (p :: rest) co =
      if p.1 ∈ cls.classAttrs then applyExtras cls strict rest co
      else if strict then .error (.strictAttr cls.name p.1 p.2)
      else applyExtras cls strict rest (co.map (fun cc => setKey cc p.1 p.2)) := rfl

theorem extrasFold_nil (cls : ConfigClass) (c : List (String × Value)) :
    extrasFold cls [] c = c := rfl

theorem extrasFold_cons (cls : ConfigClass) (p : String × Value)
    (rest : List (String × Value)) (c : List (String × Value)) :
    extrasFold cls (p :: rest) c =
      extrasFold cls rest (if p.1 ∈ cls.classAttrs then c else setKey c p.1 p.2) := by
  rw [extrasFold, extrasFold, List.foldl_cons]

theorem applyExtras_false_some (cls : ConfigClass)
    (l : List (String × Value)) :
    ∀ c : List (String × Value),
      applyExtras cls false l (some c) = .ok (some (extrasFold cls l c)) := by
  induction l with
  | nil => intro c; rfl
  | cons p rest ih =>
    intro c
    rw [applyExtras_cons, extrasFold_cons]
    by_cases h : p.1 ∈ cls.classAttrs
    · rw [if_pos h, if_pos h]
      exact ih c
    · rw [if_neg h, if_neg h, if_neg (by exact Bool.false_ne_true)]
      exact ih (setKey c p.1 p.2)

theorem applyExtras_ok_all (cls : ConfigClass) (strict : Bool)
    (l : List (String × Value)) (h : ∀ p ∈ l, p.1 ∈ cls.classAttrs) :
    ∀ co, applyExtras cls strict l co = .ok co := by
  induction l with
  | nil => intro co; rfl
  | cons p rest ih =>
    intro co
    rw [applyExtras_cons, if_pos (h p (List.mem_cons_self p rest))]
    exact ih (fun q hq => h q (List.mem_cons_of_mem p hq)) co

theorem applyExtras_strict_err (cls : ConfigClass)
    (l : List (String × Value)) (h : ∃ p ∈ l, p.1 ∉ cls.classAttrs) :
    ∀ co, ∃ k v, (k, v) ∈ l ∧ k ∉ cls.classAttrs ∧
      applyExtras cls true l co = .error (.strictAttr cls.name k v) := by
  induction l with
  | nil => rcases h with ⟨p, hp, _⟩; simp at hp
  | cons p rest ih =>
    intro co
    by_cases hp : p.1 ∈ cls.classAttrs
    · have h2 : ∃ q ∈ rest, q.1 ∉ cls.classAttrs := by
        rcases h with ⟨q, hq, hqa⟩
        rcases List.mem_cons.mp hq with e | e
        · exact absurd (e ▸ hp) hqa
        · exact ⟨q, e, hqa⟩
      rcases ih h2 co with ⟨k, v, hm, hka, he⟩
      refine ⟨k, v, List.mem_cons_of_mem p hm, hka, ?_⟩
      rw [applyExtras_cons, if_pos hp]
      exact he
    · refine ⟨p.1, p.2, ?_, hp, ?_⟩
      · exact List.mem_cons_self p rest
      · rw [applyExtras_cons, if_neg hp, if_pos rfl]

theorem applyExtras_ne_noKey (cls : ConfigClass) (strict : Bool)
    (l : List (String × Value)) :
    ∀ co s, applyExtras cls strict l co ≠ .error (.noConfigTypeKey s) := by
  induction l with
  | nil =>
    intro co s h
    rw [applyExtras_nil] at h
    exact Except.noConfusion h
  | cons p rest ih =>
    intro co s h
    rw [applyExtras_cons] at h
    by_cases hp : p.1 ∈ cls.classAttrs
    · rw [if_pos hp] at h
      exact ih co s h
    · rw [if_neg hp] at h
      by_cases hs : strict = true
      · rw [if_pos hs] at h
        exact PyErr.noConfusion (Except.error.inj h)
      · rw [if_neg hs] at h
        exact ih _ s h

theorem applyExtras_ok_some (cls : ConfigClass) (strict : Bool)
    (l : List (String × Value)) :
    ∀ c co, applyExtras cls strict l (some c) = .ok co →
      ∃ c2, co = some c2 := by
  induction l with
  | nil =>
    intro c co h
    rw [applyExtras_nil] at h
    exact ⟨c, (Except.ok.inj h).symm⟩
  | cons p rest ih =>
    intro c co h
    rw [applyExtras_cons] at h
    by_cases hp : p.1 ∈ cls.classAttrs
    · rw [if_pos hp] at h
      exact ih c co h
    · rw [if_neg hp] at h
      by_cases hs : strict = true
      · rw [if_pos hs] at h
        exact Except.noConfusion h
      · rw [if_neg hs] at h
        exact ih (setKey c p.1 p.2) co h

theorem extrasFold_all_id (cls : ConfigClass) (l : List (String × Value))
    (h : ∀ p ∈ l, p.1 ∈ cls.classAttrs) :
    ∀ c, extrasFold cls l c = c := by
  induction l with
  | nil => intro c; rfl
  | cons p rest ih =>
    intro c
    rw [extrasFold_cons, if_pos (h p (List.mem_cons_self p rest))]
    exact ih (fun q hq => h q (List.mem_cons_of_mem p hq)) c

theorem extrasFold_preserve_ne (cls : ConfigClass) (l : List (String × Value))
    (k : String) (h : ∀ p ∈ l, p.1 ≠ k) :
    ∀ c, alookup (extrasFold cls l c) k = alookup c k := by
  induction l with
  | nil => intro c; rfl
  | cons p rest ih =>
    intro c
    rw [extrasFold_cons]
    have ihr := ih (fun q hq => h q (List.mem_cons_of_mem p hq))
    by_cases hp : p.1 ∈ cls.classAttrs
    · rw [if_pos hp]
      exact ihr c
    · rw [if_neg hp, ihr _,
        alookup_setKey_ne _ _ (fun e => h p (List.mem_cons_self p rest) e.symm)]

theorem extrasFold_lookup_notin (cls : ConfigClass) (l : List (String × Value))
    (hnd : (l.map Prod.fst).Nodup) (k : String) (v : Value)
    (hmem : (k, v) ∈ l) (hk : k ∉ cls.classAttrs) :
    ∀ c, alookup (extrasFold cls l c) k = some v := by
  induction l with
  | nil => simp at hmem
  | cons p rest ih =>
    intro c
    rw [extrasFold_cons]
    rcases List.mem_cons.mp hmem with h0 | h0
    · have hp1 : p.1 = k := by rw [← h0]
      have hrest : ∀ q ∈ rest, q.1 ≠ k := by
        intro q hq e
        have : k ∈ rest.map Prod.fst := e ▸ List.mem_map.mpr ⟨q, hq, rfl⟩
        exact (List.nodup_cons.mp ((List.map_cons _ _ _) ▸ hnd)).1 (hp1 ▸ this)
      rw [extrasFold_preserve_ne cls rest k hrest]
      rw [if_neg (hp1 ▸ hk), hp1, alookup_setKey_self]
      rw [← h0]
    · exact ih (List.nodup_cons.mp ((List.map_cons _ _ _) ▸ hnd)).2 h0 _

theorem extrasFold_lookup_in (cls : ConfigClass) (l : List (String × Value))
    (hnd : (l.map Prod.fst).Nodup) (k : String) (v : Value)
    (hmem : (k, v) ∈ l) (hk : k ∈ cls.classAttrs) :
    ∀ c, alookup c k = some v → alookup (extrasFold cls l c) k = some v := by
  induction l with
  | nil => simp at hmem
  | cons p rest ih =>
    intro c hc
    rw [extrasFold_cons]
    rcases List.mem_cons.mp hmem with h0 | h0
    · have hp1 : p.1 = k := by rw [← h0]
      have hrest : ∀ q ∈ rest, q.1 ≠ k := by
        intro q hq e
        have : k ∈ rest.map Prod.fst := e ▸ List.mem_map.mpr ⟨q, hq, rfl⟩
        exact (List.nodup_cons.mp ((List.map_cons _ _ _) ▸ hnd)).1 (hp1 ▸ this)
      rw [extrasFold_preserve_ne cls rest k hrest]
      rw [if_pos (hp1 ▸ hk)]
      exact hc
    · have hp1 : p.1 ≠ k := by
        intro e
        have : k ∈ rest.map Prod.fst := List.mem_map.mpr ⟨(k, v), h0, rfl⟩
        exact (List.nodup_cons.mp ((List.map_cons _ _ _) ▸ hnd)).1 (e ▸ this)
      apply ih (List.nodup_cons.mp ((List.map_cons _ _ _) ▸ hnd)).2 h0
      by_cases hp : p.1 ∈ cls.classAttrs
      · rw [if_pos hp]
        exact hc
      · rw [if_neg hp, alookup_setKey_ne _ _ (fun e => hp1 e.symm)]
        exact hc

theorem from_dict_of_none (cls : ConfigClass) (d : List (String × Value))
    (strict : Bool) (kwargs : List (String × Value))
    (h : alookup d cls.config_type = none) :
    from_dict cls d strict kwargs = .error (.keyError cls.config_type) := by
  rw [from_dict, h]

theorem from_dict_of_vdict (cls : ConfigClass) (d : List (String × Value))
    (strict : Bool) (kwargs : List (String × Value))
    (sec : List (String × Value))
    (h : alookup d cls.config_type = some (.vdict sec)) :
    from_dict cls d strict kwargs = from_dict_body cls sec strict kwargs := by
  rw [from_dict, h]

theorem from_dict_body_eq (cls : ConfigClass) (sec : List (String × Value))
    (strict : Bool) (kwargs : List (String × Value)) :
    from_dict_body cls sec strict kwargs =
      match applyExtras cls strict (dictUpdate sec kwargs)
        (some (mkInstance cls ((dictUpdate sec kwargs).filter
          (fun p => decide (p.1 ∈ cls.annots))))) with
      | .error e => .error e
      | .ok none => .error (.noConfigTypeKey cls.config_type)
      | .ok (some c) => .ok c := rfl

theorem from_dict_body_false (cls : ConfigClass) (sec : List (String × Value))
    (kwargs : List (String × Value)) :
    from_dict_body cls sec false kwargs =
      .ok (extrasFold cls (dictUpdate sec kwargs)
        (mkInstance cls ((dictUpdate sec kwargs).filter
          (fun p => decide (p.1 ∈ cls.annots))))) := by
  rw [from_dict_body_eq, applyExtras_false_some]

theorem pushD_zero : ∀ n : Nat, pushD 0 n = n := by
  intro n
  induction n using Nat.strong_induction_on with
  | _ n ih =>
    rw [pushD]
    by_cases h : n < 10
    · rw [if_pos h]
      omega
    · rw [if_neg h, ih (n / 10) (Nat.div_lt_self (by omega) (by omega))]
      omega

theorem digitChar_val (d : Nat) (h : d < 10) :
    (Nat.digitChar d).toNat - 48 = d := by
  interval_cases d <;> rfl

theorem foldl_toDigitsCore :
    ∀ (f n : Nat) (l : List Char) (acc : Nat), n < f →
      List.foldl (fun a c => 10 * a + (c.toNat - 48)) acc
          (Nat.toDigitsCore 10 f n l) =
        List.foldl (fun a c => 10 * a + (c.toNat - 48)) (pushD acc n) l := by
  intro f
  induction f with
  | zero => intro n l acc h; exact absurd h (Nat.not_lt_zero n)
  | succ f ih =>
    intro n l acc h
    rw [Nat.toDigitsCore]
    by_cases h0 : n / 10 = 0
    · rw [if_pos h0]
      simp only [List.foldl_cons]
      rw [digitChar_val _ (Nat.mod_lt _ (by omega))]
      have hlt : n < 10 := by omega
      rw [pushD, if_pos hlt, Nat.mod_eq_of_lt hlt]
    · rw [if_neg h0]
      have h2 : n / 10 < f := by
        have := Nat.div_lt_self (n := n) (k := 10) (by omega) (by omega)
        omega
      rw [ih (n / 10) _ _ h2]
      simp only [List.foldl_cons]
      rw [digitChar_val _ (Nat.mod_lt _ (by omega))]
      rw [show pushD acc n = 10 * pushD acc (n / 10) + n % 10 from by
        rw [pushD, if_neg (by omega)]]

theorem strParseNat_repr (n : Nat) : strParseNat (Nat.repr n) = n := by
  unfold strParseNat
  have hd : (Nat.repr n).data = Nat.toDigits 10 n := rfl
  rw [hd, Nat.toDigits, foldl_toDigitsCore (n + 1) n [] 0 (Nat.lt_succ_self n)]
  exact pushD_zero n

theorem strOfNat_injective {a b : Nat} (h : strOfNat a = strOfNat b) : a = b := by
  have h2 := congrArg strParseNat h
  rwa [show strOfNat a = Nat.repr a from rfl, show strOfNat b = Nat.repr b from rfl,
    strParseNat_repr, strParseNat_repr] at h2

theorem dictUpdate_eq_append {β : Type} :
    ∀ (l acc : List (String × β)), ((acc ++ l).map Prod.fst).Nodup →
      dictUpdate acc l = acc ++ l := by
  intro l
  induction l with
  | nil => intro acc _; rw [dictUpdate_nil, List.append_nil]
  | cons p rest ih =>
    intro acc h
    have hnone : alookup acc p.1 = none := by
      rw [alookup_eq_none_iff]
      intro hmem
      rw [List.map_append, List.nodup_append] at h
      exact h.2.2 hmem (by rw [List.map_cons]; exact List.mem_cons_self _ _)
    have hset : setKey acc p.1 p.2 = acc ++ [p] := by
      rw [setKey, hnone]
      rfl
    rw [dictUpdate_cons, hset]
    rw [List.append_cons] at h
    rw [ih (acc ++ [p]) h, ← List.append_cons]

theorem pyDictOf_eq_self {β : Type} (l : List (String × β))
    (h : (l.map Prod.fst).Nodup) : pyDictOf l = l := by
  rw [pyDictOf, dictUpdate_eq_append l [] (by rw [List.nil_append]; exact h),
    List.nil_append]

theorem tcEnumPairs_keys (labels : List String) :
    (tcEnumPairs labels).map Prod.fst =
      (List.range labels.length).map strOfNat := by
  rw [tcEnumPairs, List.map_map, ← List.enum_map_fst labels, List.map_map]
  rfl

theorem tcEnumPairs_values (labels : List String) :
    (tcEnumPairs labels).map Prod.snd = labels := by
  rw [tcEnumPairs, List.map_map]
  have : (Prod.snd ∘ fun p : Nat × String => (strOfNat p.1, p.2)) = Prod.snd := by
    funext p
    rfl
  rw [this, List.enum_map_snd]

theorem tcEnumPairs_keys_nodup (labels : List String) :
    ((tcEnumPairs labels).map Prod.fst).Nodup := by
  rw [tcEnumPairs_keys]
  exact List.Nodup.map (fun a b h => strOfNat_injective h) (List.nodup_range _)

theorem tcId2label_eq (labels : List String) :
    tcId2label labels = tcEnumPairs labels :=
  pyDictOf_eq_self _ (tcEnumPairs_keys_nodup labels)

theorem tcId2label_lookup (labels : List String) (i : Nat) (name : String)
    (h : labels.get? i = some name) :
    alookup (tcId2label labels) (strOfNat i) = some name := by
  rw [tcId2label_eq]
  apply alookup_of_mem_nodup (tcEnumPairs_keys_nodup labels)
  rw [tcEnumPairs]
  exact List.mem_map.mpr ⟨(i, name), List.mk_mem_enum_iff_get?.mpr h, rfl⟩

theorem tcEnumPairs_values_nodup (labels : List String) (hnd : labels.Nodup) :
    ((tcEnumPairs labels).map Prod.snd).Nodup := by
  rw [tcEnumPairs_values]
  exact hnd

theorem tcLabel2id_lookup (labels : List String) (hnd : labels.Nodup)
    (s name : String) (h : alookup (tcId2label labels) s = some name) :
    alookup (tcLabel2id labels) name = some s := by
  have hswap : ((tcId2label labels).map (fun p => (p.2, p.1))).map Prod.fst =
      (tcId2label labels).map Prod.snd := by
    rw [List.map_map]
    rfl
  have hswapnd : (((tcId2label labels).map (fun p => (p.2, p.1))).map Prod.fst).Nodup := by
    rw [hswap, tcId2label_eq]
    exact tcEnumPairs_values_nodup labels hnd
  rw [tcLabel2id, pyDictOf_eq_self _ hswapnd]
  apply alookup_of_mem_nodup hswapnd
  exact List.mem_map.mpr ⟨(s, name), alookup_mem h, rfl⟩

/-- C4: for every dict that does not contain the config class's
`config_type` as a key, `BaseConfig.from_dict` fails with the missing-key
lookup error (`KeyError` at `dict_config[cls.config_type]`), regardless of
`strict` and of the keyword arguments, with no recovery or partial
result: the function's result *is* that error. -/
theorem from_dict_missing_section_keyerror (cls : ConfigClass)
    (d : List (String × Value)) (strict : Bool)
    (kwargs : List (String × Value))
    (h : cls.config_type ∉ d.map Prod.fst) :
    from_dict cls d strict kwargs = .error (.keyError cls.config_type) :=
  from_dict_of_none cls d strict kwargs
    ((alookup_eq_none_iff d cls.config_type).mpr h)

theorem from_dict_missing_section_witness :
    from_dict modelConfigCls [("dataset", .vdict [])] true [] =
      .error (.keyError "model") :=
  from_dict_missing_section_keyerror modelConfigCls
    [("dataset", .vdict [])] true [] (by decide)

/-- C9: the final `if config is None` branch of `BaseConfig.from_dict`
(raising "This dict config has no `{config_type}` key!") is unreachable
for every input — the constructed config is never `None` at that point —
and a dict lacking the `config_type` section instead fails earlier, at the
section lookup, with a `KeyError`. -/
theorem noConfigTypeKey_branch_unreachable (cls : ConfigClass)
    (d : List (String × Value)) (strict : Bool)
    (kwargs : List (String × Value)) :
    (∀ s, from_dict cls d strict kwargs ≠ .error (.noConfigTypeKey s)) ∧
    (alookup d cls.config_type = none →
      from_dict cls d strict kwargs = .error (.keyError cls.config_type)) := by
  constructor
  · intro s h
    rcases hx : alookup d cls.config_type with _ | v
    · rw [from_dict_of_none cls d strict kwargs hx] at h
      exact PyErr.noConfusion (Except.error.inj h)
    · cases v with
      | vdict sec =>
        rw [from_dict_of_vdict cls d strict kwargs sec hx, from_dict_body_eq] at h
        rcases h2 : applyExtras cls strict (dictUpdate sec kwargs)
            (some (mkInstance cls ((dictUpdate sec kwargs).filter
              (fun p => decide (p.1 ∈ cls.annots))))) with e | co
        · rw [h2] at h
          have h3 : e = PyErr.noConfigTypeKey s := Except.error.inj h
          exact applyExtras_ne_noKey cls strict _ _ s (h3 ▸ h2)
        · rw [h2] at h
          rcases applyExtras_ok_some cls strict _ _ _ h2 with ⟨c2, hc2⟩
          subst hc2
          exact Except.noConfusion h
      | pynone =>
        rw [from_dict, hx] at h
        exact PyErr.noConfusion (Except.error.inj h)
      | atom a =>
        rw [from_dict, hx] at h
        exact PyErr.noConfusion (Except.error.inj h)
      | vint n =>
        rw [from_dict, hx] at h
        exact PyErr.noConfusion (Except.error.inj h)
      | tensorLong t =>
        rw [from_dict, hx] at h
        exact PyErr.noConfusion (Except.error.inj h)
      | vlist l =>
        rw [from_dict, hx] at h
        exact PyErr.noConfusion (Except.error.inj h)
      | vobj nm l =>
        rw [from_dict, hx] at h
        exact PyErr.noConfusion (Except.error.inj h)
  · intro h0
    exact from_dict_of_none cls d strict kwargs h0

theorem noConfigTypeKey_branch_witness :
    from_dict baseConfigCls [("model", .vdict [])] false [] =
      .error (.keyError "base") :=
  (noConfigTypeKey_branch_unreachable baseConfigCls
    [("model", .vdict [])] false []).2 rfl

/-- C1: with `strict=True` and a dict section for `cls.config_type`, the
loop raises the strict `ValueError` exactly when the section merged with
the keyword arguments contains a key that is not a declared attribute of
the config class (`hasattr(cls, k)` fails, modelled by `cls.classAttrs`);
when every key is a declared attribute, no error is raised and the
constructed config is returned. -/
theorem from_dict_strict_raises_iff_unknown_attr (cls : ConfigClass)
    (d : List (String × Value)) (kwargs : List (String × Value))
    (sec : List (String × Value))
    (hsec : alookup d cls.config_type = some (.vdict sec)) :
    ((∃ p ∈ dictUpdate sec kwargs, p.1 ∉ cls.classAttrs) →
      ∃ k v, (k, v) ∈ dictUpdate sec kwargs ∧ k ∉ cls.classAttrs ∧
        from_dict cls d true kwargs = .error (.strictAttr cls.name k v)) ∧
    ((∀ p ∈ dictUpdate sec kwargs, p.1 ∈ cls.classAttrs) →
      from_dict cls d true kwargs =
        .ok (mkInstance cls ((dictUpdate sec kwargs).filter
          (fun p => decide (p.1 ∈ cls.annots))))) := by
  constructor
  · intro hex
    rcases applyExtras_strict_err cls (dictUpdate sec kwargs) hex
        (some (mkInstance cls ((dictUpdate sec kwargs).filter
          (fun p => decide (p.1 ∈ cls.annots))))) with ⟨k, v, hm, hka, he⟩
    refine ⟨k, v, hm, hka, ?_⟩
    rw [from_dict_of_vdict cls d true kwargs sec hsec, from_dict_body_eq, he]
  · intro hall
    rw [from_dict_of_vdict cls d true kwargs sec hsec, from_dict_body_eq,
      applyExtras_ok_all cls true _ hall]

theorem from_dict_strict_witness :
    from_dict baseConfigCls [("base", .vdict [("config_type", .atom "base")])]
        true [] = .ok [("config_type", .atom "base")] :=
  (from_dict_strict_raises_iff_unknown_attr baseConfigCls
    [("base", .vdict [("config_type", .atom "base")])] []
    [("config_type", .atom "base")] rfl).2 (by decide)

/-- C2: with `strict=False` (the default) and a dict section, `from_dict`
never raises: it returns a config, and every key of the merged section
that is not an attribute of the class is attached to the returned config
by `setattr`, holding the value from the section. -/
theorem from_dict_nonstrict_attaches_unknown_attrs (cls : ConfigClass)
    (d kwargs sec : List (String × Value))
    (hsec : alookup d cls.config_type = some (.vdict sec))
    (hnd : ((dictUpdate sec kwargs).map Prod.fst).Nodup) :
    ∃ c, from_dict cls d false kwargs = .ok c ∧
      ∀ k v, (k, v) ∈ dictUpdate sec kwargs → k ∉ cls.classAttrs →
        alookup c k = some v := by
  refine ⟨extrasFold cls (dictUpdate sec kwargs)
      (mkInstance cls ((dictUpdate sec kwargs).filter
        (fun p => decide (p.1 ∈ cls.annots)))), ?_, ?_⟩
  · rw [from_dict_of_vdict cls d false kwargs sec hsec, from_dict_body_false]
  · intro k v hm hk
    exact extrasFold_lookup_notin cls _ hnd k v hm hk _

theorem from_dict_nonstrict_witness :
    ∃ c, from_dict baseConfigCls [("base", .vdict [("oops", .atom "1")])]
        false [] = .ok c ∧ alookup c "oops" = some (.atom "1") := by
  rcases from_dict_nonstrict_attaches_unknown_attrs baseConfigCls
      [("base", .vdict [("oops", .atom "1")])] [] [("oops", .atom "1")]
      rfl (by decide) with ⟨c, hc, hall⟩
  exact ⟨c, hc, hall "oops" (.atom "1")
    (List.mem_cons_self ("oops", Value.atom "1") []) (by decide)⟩

/-- C5 counterexample: `config_type` is a declared (inherited) field of
`TextClassificationDatasetConfig`, yet
`from_dict(d, config_type="x")` ignores the keyword: the key is absent
from the class's own `__annotations__`, so it is not passed to the
constructor, and since `hasattr` holds for it the loop does not attach it
either — the returned config keeps the default `"dataset"` instead of
`"x"`. -/
theorem from_dict_kwargs_override_cex :
    from_dict textClsDatasetConfigCls [("dataset", .vdict [])] false
        [("config_type", .atom "x")] =
      .ok (mkInstance textClsDatasetConfigCls []) ∧
    alookup (mkInstance textClsDatasetConfigCls []) "config_type" =
      some (.atom "dataset") ∧
    Value.atom "dataset" ≠ Value.atom "x" := by
  refine ⟨rfl, rfl, ?_⟩
  intro h
  injection h with h2
  exact absurd h2 (by decide)

/-- C5 amended: for every field `k` that is listed in the class's *own*
`__annotations__`, calling `from_dict` (with the default `strict=False`)
with keyword argument `k=v` returns a config whose field `k` equals `v`,
overriding any value for `k` in the dict section.  This covers
`default_factory` fields too (for which `hasattr` fails): the constructor
already receives the keyword through the `__annotations__` filter, and the
non-strict loop merely re-attaches the same value. -/
theorem from_dict_kwargs_override_amended (cls : ConfigClass)
    (d sec : List (String × Value)) (k : String) (v : Value)
    (hsec : alookup d cls.config_type = some (.vdict sec))
    (hnd : ((dictUpdate sec [(k, v)]).map Prod.fst).Nodup)
    (hann : k ∈ cls.annots) (hfield : k ∈ cls.defaults.map Prod.fst) :
    ∃ c, from_dict cls d false [(k, v)] = .ok c ∧ alookup c k = some v := by
  have hmv : alookup (dictUpdate sec [(k, v)]) k = some v := by
    have he : dictUpdate sec [(k, v)] = setKey sec k v := rfl
    rw [he, alookup_setKey_self]
  have hargs : alookup ((dictUpdate sec [(k, v)]).filter
      (fun p => decide (p.1 ∈ cls.annots))) k = some v := by
    rw [alookup_filter_key (fun s0 => decide (s0 ∈ cls.annots)),
      if_pos (decide_eq_true hann), hmv]
  have hinst : alookup (mkInstance cls ((dictUpdate sec [(k, v)]).filter
      (fun p => decide (p.1 ∈ cls.annots)))) k = some v := by
    rw [alookup_mkInstance]
    rcases hdv : alookup cls.defaults k with _ | dv0
    · exact absurd hfield ((alookup_eq_none_iff _ _).mp hdv)
    · rw [Option.map_some', hargs]
      rfl
  refine ⟨extrasFold cls (dictUpdate sec [(k, v)])
      (mkInstance cls ((dictUpdate sec [(k, v)]).filter
        (fun p => decide (p.1 ∈ cls.annots)))), ?_, ?_⟩
  · rw [from_dict_of_vdict cls d false [(k, v)] sec hsec, from_dict_body_false]
  · by_cases hattr : k ∈ cls.classAttrs
    · exact extrasFold_lookup_in cls _ hnd k v (alookup_mem hmv) hattr _ hinst
    · exact extrasFold_lookup_notin cls _ hnd k v (alookup_mem hmv) hattr _

theorem from_dict_kwargs_override_witness :
    ∃ c, from_dict datasetConfigCls
        [("dataset", .vdict [("name", .atom "old")])] false
        [("name", .atom "new")] = .ok c ∧
      alookup c "name" = some (.atom "new") :=
  from_dict_kwargs_override_amended datasetConfigCls
    [("dataset", .vdict [("name", .atom "old")])] [("name", .atom "old")]
    "name" (.atom "new") rfl (by decide) (by decide) (by decide)

/-- C3 counterexample: for the instance
`TextClassificationDatasetConfig(config_type="x")` — whose attributes are
exactly its declared fields — `dict()` serializes all fields including
`config_type="x"`, but reloading `{"dataset": <that dict>}` with
`from_dict` does not restore `config_type`: it is not in the class's own
`__annotations__`, so the constructor never receives it and the result
keeps the default `"dataset"`.  The round trip therefore does not return
the original config. -/
theorem from_dict_dict_roundtrip_cex :
    from_dict textClsDatasetConfigCls
        [("dataset", .vdict (configDict textClsDatasetConfigCls tcdCexInst))]
        false [] ≠ .ok tcdCexInst := by
  intro h
  have h2 := congrArg (fun r : Except PyErr (List (String × Value)) =>
    match r with
    | Except.ok c => alookup c "config_type"
    | Except.error _ => none) h
  have h3 : some (Value.atom "dataset") = some (Value.atom "x") := h2
  injection h3 with h4
  injection h4 with h5
  exact absurd h5 (by decide)

/-- C3 amended: the `dict()` / `from_dict` round trip restores the config
for every config class all of whose fields appear in its own
`__annotations__` (and are class attributes), and every instance whose
attributes are exactly the declared fields and whose values contain no
nested dataclass instance (which `asdict` would flatten into a plain
dict): `from_dict({config_type: config.dict()})` then returns a config
equal to the original. -/
theorem from_dict_dict_roundtrip_amended (cls : ConfigClass)
    (c : List (String × Value)) (strict : Bool)
    (hattrs : c.map Prod.fst = fieldNames cls)
    (hnd : (fieldNames cls).Nodup)
    (hflat : flatL c = true)
    (hann : ∀ f ∈ fieldNames cls, f ∈ cls.annots)
    (hcattr : ∀ f ∈ fieldNames cls, f ∈ cls.classAttrs) :
    from_dict cls [(cls.config_type, .vdict (configDict cls c))] strict [] =
      .ok c := by
  have hndc : (c.map Prod.fst).Nodup := by rw [hattrs]; exact hnd
  have hcd : configDict cls c = c := by
    rw [configDict, ← hattrs, restore_filterMap c hndc, asdictL_flat c hflat]
  rw [hcd]
  have hsec : alookup [(cls.config_type, Value.vdict c)] cls.config_type =
      some (.vdict c) := by
    rw [alookup_cons, if_pos rfl]
  rw [from_dict_of_vdict cls _ strict [] c hsec, from_dict_body_eq]
  have hmerged : dictUpdate c ([] : List (String × Value)) = c := dictUpdate_nil c
  rw [hmerged]
  have hfilter : c.filter (fun p => decide (p.1 ∈ cls.annots)) = c := by
    rw [List.filter_eq_self]
    intro p hp
    exact decide_eq_true (hann p.1 (hattrs ▸ List.mem_map.mpr ⟨p, hp, rfl⟩))
  rw [hfilter]
  have hinst : mkInstance cls c = c := by
    rw [mkInstance]
    exact map_alookup_getD_restore cls.defaults c hattrs hndc
  rw [hinst]
  have hall : ∀ p ∈ c, p.1 ∈ cls.classAttrs := by
    intro p hp
    exact hcattr p.1 (hattrs ▸ List.mem_map.mpr ⟨p, hp, rfl⟩)
  rw [applyExtras_ok_all cls strict c hall]

/-- Instance `ModelConfig(name="bert", pretrained_path="p")`, used to
witness the amended round-trip theorem on a class from configs.py. -/
def cModelInst : List (String × Value) :=
  [("config_type", .atom "model"), ("name", .atom "bert"),
   ("pretrained_path", .atom "p"), ("inner_model_config", .pynone)]

theorem from_dict_dict_roundtrip_witness :
    from_dict modelConfigCls
        [("model", .vdict (configDict modelConfigCls cModelInst))] false [] =
      .ok cModelInst :=
  from_dict_dict_roundtrip_amended modelConfigCls cModelInst false rfl
    (by decide) rfl (by decide) (by decide)

/-- C6 counterexample: with a duplicated label name, `label2id` is not the
exact inverse of `id2label`: for the label list `["bad", "bad"]`,
`id2label["0"] = "bad"` but `label2id["bad"] = "1"`, so
`label2id[id2label["0"]] ≠ "0"` — the later index overwrote the earlier
one in the `{v: k}` comprehension. -/
theorem extract_labels_inverse_cex :
    alookup (tcId2label ["bad", "bad"]) (strOfNat 0) = some "bad" ∧
    alookup (tcLabel2id ["bad", "bad"]) "bad" = some (strOfNat 1) ∧
    strOfNat 1 ≠ strOfNat 0 :=
  ⟨rfl, rfl, by decide⟩

/-- C6 amended: `_extract_labels` sets `num_labels` to the length of the
label list and maps the string form of each index `i` to the `i`-th label
name in `id2label`; provided the label names are pairwise distinct,
`label2id` is the exact inverse of `id2label`
(`label2id[id2label[s]] = s` for every key `s` of `id2label`). -/
theorem extract_labels_amended (labels : List String) :
    tcNumLabels labels = labels.length ∧
    (∀ i name, labels.get? i = some name →
      alookup (tcId2label labels) (strOfNat i) = some name) ∧
    (labels.Nodup → ∀ s name, alookup (tcId2label labels) s = some name →
      alookup (tcLabel2id labels) name = some s) :=
  ⟨rfl, fun i name h => tcId2label_lookup labels i name h,
   fun hnd s name h => tcLabel2id_lookup labels hnd s name h⟩

theorem extract_labels_witness :
    tcNumLabels ["neg", "pos"] = 2 ∧
    alookup (tcId2label ["neg", "pos"]) (strOfNat 1) = some "pos" ∧
    alookup (tcLabel2id ["neg", "pos"]) "pos" = some (strOfNat 1) := by
  refine ⟨(extract_labels_amended ["neg", "pos"]).1, ?_, ?_⟩
  · exact (extract_labels_amended ["neg", "pos"]).2.1 1 "pos" rfl
  · exact (extract_labels_amended ["neg", "pos"]).2.2 (by decide) (strOfNat 1)
      "pos" ((extract_labels_amended ["neg", "pos"]).2.1 1 "pos" rfl)

/-- C7: for every index valid in the underlying dataset (and a row whose
text column holds some value and whose label column holds an int),
`__getitem__` returns exactly the tokenizer's output for the text field
augmented with a `"labels"` entry holding the label as a one-element long
tensor — the `"labels"` key maps to `torch.tensor([label], dtype=long)`
and every other key is looked up unchanged from the tokenizer output —
and `__len__` returns the length of the underlying dataset. -/
theorem getitem_tokenizes_and_attaches_label (s : TCDataset) (index : Nat)
    (row : List (String × Value)) (text : Value) (label : Int)
    (hrow : s.dataset.get? index = some row)
    (htext : alookup row s.text_field = some text)
    (hlabel : alookup row s.label_field = some (.vint label)) :
    (s.getItem index).2 =
      .ok (setKey (s.preprocessor text) "labels" (.tensorLong [label])) ∧
    alookup (setKey (s.preprocessor text) "labels"
      (.tensorLong [label])) "labels" = some (.tensorLong [label]) ∧
    (∀ k, k ≠ "labels" →
      alookup (setKey (s.preprocessor text) "labels" (.tensorLong [label])) k =
        alookup (s.preprocessor text) k) ∧
    (s.lenM).2 = s.dataset.length := by
  refine ⟨?_, alookup_setKey_self _ _ _,
    fun k hk => alookup_setKey_ne _ _ hk, rfl⟩
  simp only [TCDataset.getItem, hrow, htext, hlabel]

/-- A tiny concrete dataset wrapper used to witness the `__getitem__`
theorem: one row, and a tokenizer that wraps the text into an
`input_ids` entry. -/
def tcdWitness : TCDataset where
  dataset := [[("text", .atom "hello"), ("label", .vint 1)]]
  config := []
  text_field := "text"
  label_field := "label"
  preprocessor := fun t => [("input_ids", t)]
  dataCollator := fun _ => []
  id2label := []
  label2id := []
  num_labels := 0

theorem getitem_witness :
    (tcdWitness.getItem 0).2 =
      .ok [("input_ids", .atom "hello"), ("labels", .tensorLong [1])] ∧
    (tcdWitness.lenM).2 = 1 := by
  have h := getitem_tokenizes_and_attaches_label tcdWitness 0
      [("text", .atom "hello"), ("label", .vint 1)] (.atom "hello") 1 rfl rfl rfl
  exact ⟨h.1, h.2.2.2⟩

/-- C8: after construction, `__getitem__` and `__len__` are stateless:
both return the wrapper unchanged (every field — dataset, config,
preprocessor, data_collator, id2label, label2id, num_labels — is the
same), and calling `__getitem__` again with the same index returns the
same result. -/
theorem getitem_len_stateless (s : TCDataset) (index : Nat) :
    (s.getItem index).1 = s ∧
    ((s.getItem index).1).dataset = s.dataset ∧
    ((s.getItem index).1).config = s.config ∧
    ((s.getItem index).1).preprocessor = s.preprocessor ∧
    ((s.getItem index).1).dataCollator = s.dataCollator ∧
    ((s.getItem index).1).id2label = s.id2label ∧
    ((s.getItem index).1).label2id = s.label2id ∧
    ((s.getItem index).1).num_labels = s.num_labels ∧
    (s.lenM).1 = s ∧
    ((s.getItem index).1.getItem index).2 = (s.getItem index).2 := by
  have h1 : (s.getItem index).1 = s := by
    rw [TCDataset.getItem]
    repeat' split
    all_goals rfl
  refine ⟨h1, ?_, ?_, ?_, ?_, ?_, ?_, ?_, rfl, ?_⟩
  · rw [h1]
  · rw [h1]
  · rw [h1]
  · rw [h1]
  · rw [h1]
  · rw [h1]
  · rw [h1]
  · rw [h1]

/-- C10: constructing a `TextClassificationDataset` mutates the config
object passed to it (the base `Dataset` stores the caller's config by
reference — modelled from the spec, see `tcdInit`): after construction
the caller's config has `id2label`, `label2id` and `num_labels` set to the
values derived from the loaded dataset's label list, and those same
values are also stored on the wrapper itself, whose `config` field is the
very same (mutated) object. -/
theorem tcdInit_mutates_caller_config (config : List (String × Value))
    (rows : List (List (String × Value))) (labels : List String)
    (tf lf : String) (tok : Value → List (String × Value))
    (collator : List (List (String × Value)) → List (String × Value)) :
    alookup (tcdInit config rows labels tf lf tok collator).2 "id2label" =
      some (strDictToValue (tcId2label labels)) ∧
    alookup (tcdInit config rows labels tf lf tok collator).2 "label2id" =
      some (strDictToValue (tcLabel2id labels)) ∧
    alookup (tcdInit config rows labels tf lf tok collator).2 "num_labels" =
      some (.vint (tcNumLabels labels)) ∧
    (tcdInit config rows labels tf lf tok collator).2 =
      ((tcdInit config rows labels tf lf tok collator).1).config ∧
    ((tcdInit config rows labels tf lf tok collator).1).id2label =
      tcId2label labels ∧
    ((tcdInit config rows labels tf lf tok collator).1).label2id =
      tcLabel2id labels ∧
    ((tcdInit config rows labels tf lf tok collator).1).num_labels =
      tcNumLabels labels := by
  refine ⟨?_, ?_, ?_, rfl, rfl, rfl, rfl⟩
  · show alookup (setKey (setKey (setKey config "id2label"
        (strDictToValue (tcId2label labels))) "label2id"
        (strDictToValue (tcLabel2id labels))) "num_labels"
        (.vint (tcNumLabels labels))) "id2label" = _
    rw [alookup_setKey_ne _ _ (by decide), alookup_setKey_ne _ _ (by decide),
      alookup_setKey_self]
  · show alookup (setKey (setKey (setKey config "id2label"
        (strDictToValue (tcId2label labels))) "label2id"
        (strDictToValue (tcLabel2id labels))) "num_labels"
        (.vint (tcNumLabels labels))) "label2id" = _
    rw [alookup_setKey_ne _ _ (by decide), alookup_setKey_self]
  · show alookup (setKey (setKey (setKey config "id2label"
        (strDictToValue (tcId2label labels))) "label2id"
        (strDictToValue (tcLabel2id labels))) "num_labels"
        (.vint (tcNumLabels labels))) "num_labels" = _
    rw [alookup_setKey_self]
